import Mathlib

/-!
Shallow embedding of the console contact manager in `src/hw_01/main.py`,
together with proofs about its validation rules, birthday arithmetic,
dictionary invariant and error normalization.

Python's `datetime.date` is modelled as a year/month/day triple over the
proleptic Gregorian calendar; `date.toordinal` is `rataDie`,
`date.weekday` is `pyWeekday` (Monday = 0).  `date.today()` is an effect,
so every function that reads it takes `today` as an explicit argument.
Python exceptions are modelled with `Except PyErr`; mutation of the
`AddressBook` is explicit state passing, with the book represented as an
insertion-ordered association list (the semantics of a Python `dict`).
-/

/-- The Python exception classes the program raises or catches. -/
inductive PyErr where
  | valueError
  | indexError
  | keyError

deriving instance DecidableEq, Repr for PyErr

/-- A `datetime.date`: year, month, day of the proleptic Gregorian calendar. -/
structure PyDate where
  year : Nat
  month : Nat
  day : Nat

deriving instance DecidableEq, Repr for PyDate

/-- Gregorian leap-year rule, as in `calendar.isleap`/`datetime`. -/
def isLeap (y : Nat) : Bool :=
  y % 4 == 0 && (y % 100 != 0 || y % 400 == 0)

/-- Number of days in month `m` of a year with the given leap flag. -/
def daysInMonthOf (leap : Bool) (m : Nat) : Nat :=
  if m = 2 then (if leap then 29 else 28)
  else if m = 4 ∨ m = 6 ∨ m = 9 ∨ m = 11 then 30
  else 31

/-- Number of days in month `m` of year `y` (months are 1-based). -/
def daysInMonth (y m : Nat) : Nat :=
  daysInMonthOf (isLeap y) m

/-- Days preceding month `m` in a year with the given leap flag. -/
def daysBeforeMonthOf (leap : Bool) : Nat → Nat
  | 0 => 0
  | Nat.succ m => if m = 0 then 0 else daysBeforeMonthOf leap m + daysInMonthOf leap m

/-- Days in year `y` that precede month `m` (so `daysBeforeMonth y 1 = 0`). -/
def daysBeforeMonth (y m : Nat) : Nat :=
  daysBeforeMonthOf (isLeap y) m

/-- Days before January 1 of year `y`, counting from day 0 = December 31
of year 0, as in `datetime.date.toordinal`. -/
def daysBeforeYear (y : Nat) : Nat :=
  365 * (y - 1) + (y - 1) / 4 + (y - 1) / 400 - (y - 1) / 100

/-- `date.toordinal`: day number with `0001-01-01` as day 1. -/
def rataDie (d : PyDate) : Nat :=
  daysBeforeYear d.year + daysBeforeMonth d.year d.month + d.day

/-- `date.weekday()`: 0 = Monday .. 6 = Sunday (day 1 was a Monday). -/
def pyWeekday (d : PyDate) : Nat :=
  (rataDie d - 1) % 7

/-- A structurally valid calendar date with year at least `MINYEAR = 1`.
(The `MAXYEAR = 9999` cap of `datetime` is checked separately where the
source checks it; the calendar arithmetic itself does not need it.) -/
def isProperDate (d : PyDate) : Bool :=
  decide (1 ≤ d.year ∧ 1 ≤ d.month ∧ d.month ≤ 12 ∧ 1 ≤ d.day ∧
    d.day ≤ daysInMonth d.year d.month)

/-- The calendar successor of a date. -/
def nextDay (d : PyDate) : PyDate :=
  if d.day < daysInMonth d.year d.month then ⟨d.year, d.month, d.day + 1⟩
  else if d.month < 12 then ⟨d.year, d.month + 1, 1⟩
  else ⟨d.year + 1, 1, 1⟩

/-- `d + timedelta(days = n)` for `n ≥ 0`: iterated calendar successor. -/
def addDays (d : PyDate) : Nat → PyDate
  | 0 => d
  | n + 1 => nextDay (addDays d n)

/-- Python `date` comparison: lexicographic on (year, month, day). -/
def dateLt (a b : PyDate) : Bool :=
  decide (a.year < b.year ∨ (a.year = b.year ∧
    (a.month < b.month ∨ (a.month = b.month ∧ a.day < b.day))))

/-- `(a - b).days` for two dates: the signed ordinal difference. -/
def dateDiff (a b : PyDate) : Int :=
  (rataDie a : Int) - (rataDie b : Int)

/-- `d.replace(year = y)`: succeeds iff the resulting date is a valid
`datetime.date`, otherwise raises `ValueError` (modelled as `none`). -/
def replaceYear (d : PyDate) (y : Nat) : Option PyDate :=
  if isProperDate ⟨y, d.month, d.day⟩ then some ⟨y, d.month, d.day⟩ else none

/-- Character for decimal digit `k` (taken mod 10). -/
def dchar (k : Nat) : Char :=
  Char.ofNat (48 + k % 10)

/-- Two-digit zero-padded decimal rendering, as `%d`/`%m` in `strftime`. -/
def pad2 (n : Nat) : List Char :=
  [dchar (n / 10), dchar (n % 10)]

/-- Four-digit zero-padded decimal rendering, as `%Y` in `strftime`. -/
def pad4 (n : Nat) : List Char :=
  [dchar (n / 1000), dchar (n / 100 % 10), dchar (n / 10 % 10), dchar (n % 10)]

/-- Decimal value of a digit string. -/
def digitsToNat (l : List Char) : Nat :=
  l.foldl (fun a c => a * 10 + (c.toNat - 48)) 0

/-- `str.split("-")`: split a character list at every dash. -/
def splitOnDash : List Char → List (List Char)
  | [] => [[]]
  | c :: rest =>
    if c = '-' then [] :: splitOnDash rest
    else
      match splitOnDash rest with
      | [] => [[c]]
      | t :: ts => (c :: t) :: ts

/-- The day field of `strptime`'s `%d`: one or two digits, value 1..31. -/
def okDay (l : List Char) : Bool :=
  l.all Char.isDigit && decide (1 ≤ l.length ∧ l.length ≤ 2 ∧
    1 ≤ digitsToNat l ∧ digitsToNat l ≤ 31)

/-- The month field of `strptime`'s `%m`: one or two digits, value 1..12. -/
def okMonth (l : List Char) : Bool :=
  l.all Char.isDigit && decide (1 ≤ l.length ∧ l.length ≤ 2 ∧
    1 ≤ digitsToNat l ∧ digitsToNat l ≤ 12)

/-- The year field of `strptime`'s `%Y`: exactly four digits. -/
def okYear (l : List Char) : Bool :=
  l.all Char.isDigit && decide (l.length = 4)

/-- `datetime.strptime(text, "%d-%m-%Y").date()`: the text must be the
day, month and year fields joined by literal dashes with nothing left
over, and the fields must form a valid date (year at least `MINYEAR`). -/
def parseDMYList (l : List Char) : Option PyDate :=
  match splitOnDash l with
  | [ds, ms, ys] =>
    if okDay ds && okMonth ms && okYear ys then
      if 1 ≤ digitsToNat ys ∧ digitsToNat ds ≤ daysInMonth (digitsToNat ys) (digitsToNat ms) then
        some ⟨digitsToNat ys, digitsToNat ms, digitsToNat ds⟩
      else none
    else none
  | _ => none

/-- `d.strftime("%d-%m-%Y")` as a character list. -/
def formatDMYList (d : PyDate) : List Char :=
  pad2 d.day ++ '-' :: pad2 d.month ++ '-' :: pad4 d.year

/-- `d.strftime("%d-%m-%Y")`. -/
def formatDMY (d : PyDate) : String :=
  ⟨formatDMYList d⟩

/-- `d.strftime("%Y.%m.%d")`. -/
def formatYMD (d : PyDate) : String :=
  ⟨pad4 d.year ++ '.' :: pad2 d.month ++ '.' :: pad2 d.day⟩

/-- `Phone.__init__`: the source checks only `len(value) != 10` and raises
`ValueError` on failure; the stored `value` is the unchanged input text. -/
def Phone_init (value : String) : Except PyErr String :=
  if value.length = 10 then Except.ok value else Except.error PyErr.valueError

/-- `Birthday.__init__`: `datetime.strptime(value, "%d-%m-%Y")`, storing
the parsed date; a parse failure raises `ValueError`. -/
def Birthday_init (value : String) : Except PyErr PyDate :=
  match parseDMYList value.data with
  | some d => Except.ok d
  | none => Except.error PyErr.valueError

/-- `Birthday.__str__`: `self.value.strftime("%d-%m-%Y")`. -/
def Birthday_str (d : PyDate) : String :=
  formatDMY d

/-- A `Record`: one `Name` value, the list of stored `Phone` values (each
`Phone` wraps exactly its `value` string) and an optional `Birthday`. -/
structure Record where
  name : String
  phones : List String
  birthday : Option PyDate

deriving instance DecidableEq, Repr for Record

/-- An `AddressBook`'s backing `dict`: insertion-ordered key/record pairs. -/
abbrev Book := List (String × Record)

/-- Python `dict` assignment `data[k] = v`: update in place if the key is
present (keeping its position), otherwise append at the end. -/
def dictSet : Book → String → Record → Book
  | [], k, v => [(k, v)]
  | (k', v') :: rest, k, v =>
    if k' = k then (k, v) :: rest else (k', v') :: dictSet rest k v

/-- `AddressBook.add_record`: `self.data[record.name.value] = record`. -/
def add_record (book : Book) (r : Record) : Book :=
  dictSet book r.name r

/-- `AddressBook.find`: `self.data.get(name)`. -/
def bookFind : Book → String → Option Record
  | [], _ => none
  | (k, v) :: rest, name => if k = name then some v else bookFind rest name

/-- `AddressBook.delete`: remove the entry if the key is present. -/
def bookDelete (book : Book) (name : String) : Book :=
  book.filter (fun p => p.1 ≠ name)

/-- `self.data.values()`. -/
def bookRecords (book : Book) : List Record :=
  book.map Prod.snd

/-- `Record.add_phone`: validates via the `Phone` constructor and appends. -/
def Record.add_phone (r : Record) (phone_number : String) : Except PyErr Record :=
  match Phone_init phone_number with
  | Except.ok p => Except.ok { r with phones := r.phones ++ [p] }
  | Except.error e => Except.error e

/-- `Record.add_birthday`: validates via the `Birthday` constructor and
sets/overwrites the birthday. -/
def Record.add_birthday (r : Record) (birthday : String) : Except PyErr Record :=
  match Birthday_init birthday with
  | Except.ok d => Except.ok { r with birthday := some d }
  | Except.error e => Except.error e

/-- Remove the first occurrence of a value from a list, if any. -/
def removeFirstOcc : List String → String → List String
  | [], _ => []
  | p :: rest, x => if p = x then rest else p :: removeFirstOcc rest x

/-- `Record.remove_phone`: drop the first matching `Phone`, no-op if absent. -/
def Record.remove_phone (r : Record) (phone_number : String) : Record :=
  { r with phones := removeFirstOcc r.phones phone_number }

/-- The loop of `Record.edit_phone`: overwrite `phone.value` of the first
`Phone` whose value equals `old`, then `break`; no validation of `new`. -/
def editPhoneList : List String → String → String → List String
  | [], _, _ => []
  | p :: rest, old, new =>
    if p = old then new :: rest else p :: editPhoneList rest old new

/-- `Record.edit_phone(old, new)`: in-place overwrite of the first match. -/
def Record.edit_phone (r : Record) (old_phone_number new_phone_number : String) : Record :=
  { r with phones := editPhoneList r.phones old_phone_number new_phone_number }

/-- `Record.find_phone`: the first stored `Phone` with the given value. -/
def Record.find_phone (r : Record) (phone_number : String) : Option String :=
  r.phones.find? (fun p => p = phone_number)

/-- `Record.__str__`. -/
def record_str (r : Record) : String :=
  "Contact name: " ++ r.name ++ ", phones: " ++ String.intercalate "; " r.phones

/-- `AddressBook.__str__`. -/
def book_str (book : Book) : String :=
  String.intercalate "\n" ((bookRecords book).map record_str)

/-- `AddressBook.find_next_weekday(start_date, weekday)`: days ahead to
the requested weekday, forced into 1..7 when not already positive, then
`start_date + timedelta(days = days_ahead)`.  (The source only ever calls
it with `weekday = 0` and a start date, where `days_ahead` is positive.) -/
def find_next_weekday (start_date : PyDate) (weekday : Int) : PyDate :=
  if weekday - (pyWeekday start_date : Int) ≤ 0 then
    addDays start_date (weekday - (pyWeekday start_date : Int) + 7).toNat
  else
    addDays start_date (weekday - (pyWeekday start_date : Int)).toNat

/-- `AddressBook.adjust_for_weekend`: shift Saturday/Sunday (weekday ≥ 5)
to the next Monday via `find_next_weekday(birthday, 0)`. -/
def adjust_for_weekend (birthday : PyDate) : PyDate :=
  if 5 ≤ pyWeekday birthday then find_next_weekday birthday 0 else birthday

/-- The per-record candidate date of `get_upcoming_birthdays`:
`birthday_this_year = bday.replace(year=today.year)`, replaced by
`birthday_this_year.replace(year=today.year + 1)` when it is strictly
before `today`.  `none` models the `ValueError` that `replace` raises
when the month/day does not exist in the target year (Feb 29). -/
def candidateDate (b today : PyDate) : Option PyDate :=
  match replaceYear b today.year with
  | none => none
  | some birthday_this_year =>
    if dateLt birthday_this_year today then replaceYear birthday_this_year (today.year + 1)
    else some birthday_this_year

/-- The loop body of `get_upcoming_birthdays` over `self.data.values()`:
records without a birthday are skipped, a `ValueError` from `replace`
aborts the whole call, and a record is appended exactly when
`0 <= (birthday_this_year - today).days <= days`, with the entry text
`congratulation_date.strftime("%Y.%m.%d")` after weekend adjustment. -/
def upcomingAux : List Record → PyDate → Int → Except PyErr (List (String × String))
  | [], _, _ => Except.ok []
  | r :: rest, today, days =>
    match r.birthday with
    | none => upcomingAux rest today days
    | some b =>
      match candidateDate b today with
      | none => Except.error PyErr.valueError
      | some c =>
        if 0 ≤ dateDiff c today ∧ dateDiff c today ≤ days then
          match upcomingAux rest today days with
          | Except.error e => Except.error e
          | Except.ok out => Except.ok ((r.name, formatYMD (adjust_for_weekend c)) :: out)
        else upcomingAux rest today days

/-- `AddressBook.get_upcoming_birthdays(days)` with `today` explicit. -/
def get_upcoming_birthdays (book : Book) (today : PyDate) (days : Int) :
    Except PyErr (List (String × String)) :=
  upcomingAux (bookRecords book) today days

/-- The entry that `get_upcoming_birthdays` produces for one record, when
no exception occurs: `none` when the record is skipped. -/
def entryFn (today : PyDate) (days : Int) (r : Record) : Option (String × String) :=
  match r.birthday with
  | none => none
  | some b =>
    match candidateDate b today with
    | none => none
    | some c =>
      if 0 ≤ dateDiff c today ∧ dateDiff c today ≤ days then
        some (r.name, formatYMD (adjust_for_weekend c))
      else none

/-- Stated from the claim's words: the birthday with the year replaced by
the current year, replaced by the next year if that current-year date is
strictly before today. -/
def claimAdjustedBirthday (b today : PyDate) : PyDate :=
  if dateLt ⟨today.year, b.month, b.day⟩ today then ⟨today.year + 1, b.month, b.day⟩
  else ⟨today.year, b.month, b.day⟩

/-- Stated from the claim's words: the adjusted birthday lies between 0
and `days` days from today, inclusive at both ends. -/
def claimSelected (b today : PyDate) (days : Int) : Prop :=
  0 ≤ dateDiff (claimAdjustedBirthday b today) today ∧
    dateDiff (claimAdjustedBirthday b today) today ≤ days

/-- `input_error`: normalize the three caught exceptions to fixed texts. -/
def input_error : Except PyErr String → String
  | Except.ok s => s
  | Except.error PyErr.valueError => "Incorrect value."
  | Except.error PyErr.indexError => "Give me name and phone please."
  | Except.error PyErr.keyError => "Name not found."

/-- `add_contact(args, book)` before the decorator.  The starred unpack
`name, phone, *_ = args` raises `ValueError` when fewer than two tokens
are given.  A missing record is created and inserted before the phone is
validated, so the insertion survives a phone `ValueError`; `if phone:`
is Python truthiness, so an empty phone string is silently skipped. -/
def add_contact (args : List String) (book : Book) : Except PyErr String × Book :=
  match args with
  | name :: phone :: _ =>
    match bookFind book name with
    | some r =>
      if phone ≠ "" then
        match Record.add_phone r phone with
        | Except.ok r' => (Except.ok "Contact updated.", dictSet book name r')
        | Except.error e => (Except.error e, book)
      else (Except.ok "Contact updated.", book)
    | none =>
      if phone ≠ "" then
        match Record.add_phone ⟨name, [], none⟩ phone with
        | Except.ok r' => (Except.ok "Contact added.", dictSet (add_record book ⟨name, [], none⟩) name r')
        | Except.error e => (Except.error e, add_record book ⟨name, [], none⟩)
      else (Except.ok "Contact added.", add_record book ⟨name, [], none⟩)
  | _ => (Except.error PyErr.valueError, book)

/-- `add_contact` with the `input_error` decorator applied. -/
def add_contact_wrapped (args : List String) (book : Book) : String × Book :=
  (input_error (add_contact args book).1, (add_contact args book).2)

/-- `change_contact(args, book)` before the decorator: the exact unpack
`name, old_phone, new_phone = args` raises `ValueError` unless exactly
three tokens are given; a missing record or phone raises `KeyError`. -/
def change_contact (args : List String) (book : Book) : Except PyErr String × Book :=
  match args with
  | [name, old_phone, new_phone] =>
    match bookFind book name with
    | some r =>
      if (Record.find_phone r old_phone).isSome then
        (Except.ok "Contact updated.", dictSet book name (Record.edit_phone r old_phone new_phone))
      else (Except.error PyErr.keyError, book)
    | none => (Except.error PyErr.keyError, book)
  | _ => (Except.error PyErr.valueError, book)

/-- `change_contact` with the `input_error` decorator applied. -/
def change_contact_wrapped (args : List String) (book : Book) : String × Book :=
  (input_error (change_contact args book).1, (change_contact args book).2)

/-- `show_phone(args, book)` before the decorator. -/
def show_phone (args : List String) (book : Book) : Except PyErr String :=
  match bookFind book (String.join args) with
  | some r =>
    Except.ok (if r.phones ≠ [] then String.intercalate "; " r.phones else "No phones")
  | none => Except.error PyErr.keyError

/-- `add_birthday(args, book)` (the handler) before the decorator. -/
def add_birthday (args : List String) (book : Book) : Except PyErr String × Book :=
  match args with
  | [name, birthday] =>
    match bookFind book name with
    | some r =>
      match Record.add_birthday r birthday with
      | Except.ok r' => (Except.ok "Birthday added.", dictSet book name r')
      | Except.error e => (Except.error e, book)
    | none => (Except.error PyErr.keyError, book)
  | _ => (Except.error PyErr.valueError, book)

/-- `show_birthday(args, book)` before the decorator. -/
def show_birthday (args : List String) (book : Book) : Except PyErr String :=
  match bookFind book (String.join args) with
  | some r =>
    match r.birthday with
    | some d => Except.ok (Birthday_str d)
    | none => Except.ok "No birthday for this contact."
  | none => Except.error PyErr.keyError

/-- `birthdays(args, book)` before the decorator (with `today` explicit). -/
def birthdays (book : Book) (today : PyDate) : Except PyErr String :=
  match get_upcoming_birthdays book today 7 with
  | Except.error e => Except.error e
  | Except.ok [] => Except.ok "No upcoming birthdays."
  | Except.ok entries =>
    Except.ok (String.intercalate "\n" (entries.map (fun p => p.1 ++ " - " ++ p.2)))

/-- `str.split()` with no separator: whitespace runs delimit tokens and
empty tokens are never produced. -/
def splitWsAux : List Char → List Char → List (List Char)
  | [], acc => if acc = [] then [] else [acc.reverse]
  | c :: rest, acc =>
    if c.isWhitespace then
      if acc = [] then splitWsAux rest [] else acc.reverse :: splitWsAux rest []
    else splitWsAux rest (c :: acc)

/-- `user_input.split()` on a whole string. -/
def pySplitWs (l : List Char) : List (List Char) :=
  splitWsAux l []

/-- `parse_input`: `cmd, *args = user_input.split()` raises `ValueError`
on an empty token list; otherwise the command is lower-cased (`strip` is
a no-op on tokens produced by `split`). -/
def parse_input (user_input : String) : Except PyErr (String × List String) :=
  match pySplitWs user_input.data with
  | [] => Except.error PyErr.valueError
  | c :: args => Except.ok ((String.mk c).toLower, args.map String.mk)

/-- Outcome of one iteration of the dispatch loop in `main`. -/
inductive StepResult where
  | exits (book : Book)
  | output (msg : String) (book : Book)
  | crash (e : PyErr)

deriving instance DecidableEq, Repr for StepResult

/-- One iteration of `main`'s loop: tokenize the line, dispatch on the
command, report the handler's (wrapped) result.  An exception escaping
`parse_input` is uncaught and ends the process abnormally (`crash`). -/
def dispatch_step (line : String) (book : Book) (today : PyDate) : StepResult :=
  match parse_input line with
  | Except.error e => StepResult.crash e
  | Except.ok (command, args) =>
    if command = "close" ∨ command = "exit" then StepResult.exits book
    else if command = "hello" then StepResult.output "How can I help you?" book
    else if command = "add" then
      StepResult.output (add_contact_wrapped args book).1 (add_contact_wrapped args book).2
    else if command = "change" then
      StepResult.output (change_contact_wrapped args book).1 (change_contact_wrapped args book).2
    else if command = "phone" then StepResult.output (input_error (show_phone args book)) book
    else if command = "all" then StepResult.output (book_str book) book
    else if command = "add-birthday" then
      StepResult.output (input_error (add_birthday args book).1) (add_birthday args book).2
    else if command = "show-birthday" then
      StepResult.output (input_error (show_birthday args book)) book
    else if command = "birthdays" then
      StepResult.output (input_error (birthdays book today)) book
    else StepResult.output "Invalid command." book

/-- Address books reachable from the empty book by `add_record`, `find`
and `delete` (`find` does not change the book, so it needs no rule). -/
inductive Reachable : Book → Prop
  | empty : Reachable []
  | add (b : Book) (r : Record) : Reachable b → Reachable (add_record b r)
  | del (b : Book) (n : String) : Reachable b → Reachable (bookDelete b n)

theorem dictSet_mem (b : Book) (k : String) (v : Record) (p : String × Record)
    (h : p ∈ dictSet b k v) : p = (k, v) ∨ p ∈ b := by
  induction b with
  | nil => simpa [dictSet] using h
  | cons q rest ih =>
    obtain ⟨k', v'⟩ := q
    unfold dictSet at h
    by_cases hk : k' = k
    · rw [if_pos hk] at h
      rcases List.mem_cons.mp h with h1 | h1
      · exact Or.inl h1
      · exact Or.inr (List.mem_cons_of_mem _ h1)
    · rw [if_neg hk] at h
      rcases List.mem_cons.mp h with h1 | h1
      · exact Or.inr (h1 ▸ List.mem_cons_self _ _)
      · rcases ih h1 with h2 | h2
        · exact Or.inl h2
        · exact Or.inr (List.mem_cons_of_mem _ h2)

theorem editPhoneList_length (l : List String) (old new : String) :
    (editPhoneList l old new).length = l.length := by
  induction l with
  | nil => rfl
  | cons p rest ih =>
    unfold editPhoneList
    by_cases hp : p = old
    · simp [hp]
    · simp [hp, ih]

theorem editPhoneList_not_mem (l : List String) (old new : String) (h : old ∉ l) :
    editPhoneList l old new = l := by
  induction l with
  | nil => rfl
  | cons p rest ih =>
    have hp : p ≠ old := fun hpe => h (hpe ▸ List.mem_cons_self _ _)
    have hr : old ∉ rest := fun hm => h (List.mem_cons_of_mem _ hm)
    simp [editPhoneList, hp, ih hr]

theorem editPhoneList_mem (l : List String) (old new : String) (h : old ∈ l) :
    editPhoneList l old new = l.set (l.indexOf old) new := by
  induction l with
  | nil => cases h
  | cons p rest ih =>
    by_cases hp : p = old
    · subst hp
      simp [editPhoneList, List.indexOf_cons_self]
    · have hr : old ∈ rest := by
        rcases List.mem_cons.mp h with h1 | h1
        · exact absurd h1.symm hp
        · exact h1
      simp [editPhoneList, hp, List.indexOf_cons_ne _ (fun he => hp he.symm), ih hr]

/-- C1: `Phone.__init__` checks only the length of its input, so the
ten-character non-digit string "abcdefghij" — which the claim says must be
rejected — is accepted and stored unchanged, while a ten-digit string is
accepted and a string of another length is rejected with `ValueError`. -/
theorem phone_checks_length_only :
    Phone_init "abcdefghij" = Except.ok "abcdefghij" ∧
    Phone_init "1234567890" = Except.ok "1234567890" ∧
    Phone_init "123456789" = Except.error PyErr.valueError :=
  ⟨rfl, rfl, rfl⟩

/-- C2: calling the wrapped add handler with fewer than two argument
tokens makes the starred unpack raise `ValueError`, so `input_error`
returns "Incorrect value." — not "Give me name and phone please." -/
theorem add_missing_args_message :
    add_contact_wrapped ["john"] [] = ("Incorrect value.", []) ∧
    add_contact_wrapped [] [] = ("Incorrect value.", []) := by
  decide

/-- C5 counterexample: `Record.edit_phone` performs no validation of the
new value: replacing a stored phone by the three-character string "123"
succeeds and stores "123", although "123" is not a valid 10-digit phone. -/
theorem edit_phone_accepts_invalid_new :
    ("123" : String).length ≠ 10 ∧
    Record.edit_phone ⟨"john", ["1234567890"], none⟩ "1234567890" "123" =
      ⟨"john", ["123"], none⟩ := by
  decide

/-- C5 (amended): `edit_phone(old, new)` replaces, in place, the value of
the first stored `Phone` equal to `old` — without validating `new` — and
is a silent no-op when no stored `Phone` equals `old`. -/
theorem edit_phone_first_match_in_place (r : Record) (old new : String) :
    (old ∉ r.phones → Record.edit_phone r old new = r) ∧
    (old ∈ r.phones → Record.edit_phone r old new =
      { r with phones := r.phones.set (r.phones.indexOf old) new }) := by
  constructor
  · intro h
    unfold Record.edit_phone
    rw [editPhoneList_not_mem _ _ _ h]
  · intro h
    unfold Record.edit_phone
    rw [editPhoneList_mem _ _ _ h]

/-- Witness for C5's amended theorem at a concrete record. -/
theorem edit_phone_first_match_in_place_witness :
    ("222" ∈ (⟨"a", ["111", "222"], none⟩ : Record).phones) ∧
    Record.edit_phone ⟨"a", ["111", "222"], none⟩ "222" "333" =
      ⟨"a", ["111", "333"], none⟩ :=
  ⟨by decide,
    ((edit_phone_first_match_in_place ⟨"a", ["111", "222"], none⟩ "222" "333").2
      (by decide)).trans (by decide)⟩

/-- C10 counterexample: with the empty phone token — a string that is not
a valid 10-digit phone — the add handler does not return the recovered
error message: `if phone:` is false, so it reports "Contact added." while
still leaving the new empty record in the book. -/
theorem add_empty_phone_no_error :
    bookFind ([] : Book) "john" = none ∧
    ("" : String).length ≠ 10 ∧
    add_contact_wrapped ["john", ""] [] =
      ("Contact added.", [("john", ⟨"john", [], none⟩)]) := by
  decide

/-- C10 (amended): for a name absent from the book and a nonempty phone
token whose length is not 10, the wrapped add handler returns
"Incorrect value." yet the freshly created record — with that name and an
empty phone list — remains inserted in the book (the error path is not
atomic). -/
theorem add_invalid_phone_keeps_record (book : Book) (name phone : String)
    (rest : List String) (h1 : bookFind book name = none) (h2 : phone ≠ "")
    (h3 : phone.length ≠ 10) :
    add_contact_wrapped (name :: phone :: rest) book =
      ("Incorrect value.", dictSet book name ⟨name, [], none⟩) := by
  unfold add_contact_wrapped add_contact
  simp [h1, h2, Record.add_phone, Phone_init, h3, input_error, add_record]

/-- Witness for C10's amended theorem at a concrete book. -/
theorem add_invalid_phone_keeps_record_witness :
    (bookFind ([] : Book) "bob" = none ∧ ("123" : String) ≠ "" ∧
      ("123" : String).length ≠ 10) ∧
    add_contact_wrapped ["bob", "123"] [] =
      ("Incorrect value.", [("bob", ⟨"bob", [], none⟩)]) :=
  ⟨⟨by decide, by decide, by decide⟩,
    (add_invalid_phone_keeps_record [] "bob" "123" [] (by decide) (by decide)
      (by decide)).trans (by decide)⟩

/-- C8: in every address book reachable from the empty book by
`add_record` and `delete` (`find` never mutates), each stored record sits
under a key equal to its own embedded name. -/
theorem address_book_key_invariant (book : Book) (h : Reachable book) :
    ∀ k r, (k, r) ∈ book → r.name = k := by
  induction h with
  | empty => intro k r hm; cases hm
  | add b r0 _ ih =>
    intro k r hm
    rcases dictSet_mem b r0.name r0 (k, r) hm with h1 | h1
    · simp only [Prod.mk.injEq] at h1
      rw [h1.2, h1.1]
    · exact ih k r h1
  | del b n _ ih =>
    intro k r hm
    exact ih k r (List.mem_of_mem_filter hm)

/-- Witness for C8 at a concrete reachable book and a concrete entry. -/
theorem address_book_key_invariant_witness :
    (("john", (⟨"john", [], none⟩ : Record)) ∈
      add_record ([] : Book) ⟨"john", [], none⟩) ∧
    (⟨"john", [], none⟩ : Record).name = "john" :=
  ⟨by decide,
    address_book_key_invariant (add_record ([] : Book) ⟨"john", [], none⟩)
      (Reachable.add _ _ Reachable.empty) "john" ⟨"john", [], none⟩ (by decide)⟩

theorem find_phone_isSome_iff (r : Record) (phone_number : String) :
    (Record.find_phone r phone_number).isSome = true ↔ phone_number ∈ r.phones := by
  unfold Record.find_phone
  rw [List.find?_isSome]
  constructor
  · rintro ⟨x, hx, he⟩
    simp only [decide_eq_true_eq] at he
    exact he ▸ hx
  · intro h
    exact ⟨phone_number, h, by simp⟩

/-- C6: the wrapped change handler on `(name, old_phone, new_phone)`
returns "Name not found." and leaves the book unchanged whenever the name
is absent or the named record stores no phone equal to `old_phone`; when
the pair exists it returns "Contact updated." and re-stores the record
with the first matching phone's value replaced in place, which keeps the
phone-list length unchanged. -/
theorem change_contact_updates_or_not_found (book : Book)
    (name old_phone new_phone : String) :
    (bookFind book name = none →
      change_contact_wrapped [name, old_phone, new_phone] book =
        ("Name not found.", book)) ∧
    (∀ r, bookFind book name = some r → old_phone ∉ r.phones →
      change_contact_wrapped [name, old_phone, new_phone] book =
        ("Name not found.", book)) ∧
    (∀ r, bookFind book name = some r → old_phone ∈ r.phones →
      change_contact_wrapped [name, old_phone, new_phone] book =
        ("Contact updated.", dictSet book name (Record.edit_phone r old_phone new_phone)) ∧
      (Record.edit_phone r old_phone new_phone).phones.length = r.phones.length) := by
  refine ⟨?_, ?_, ?_⟩
  · intro h
    unfold change_contact_wrapped change_contact
    simp [h, input_error]
  · intro r h hmem
    have hf : (Record.find_phone r old_phone).isSome = false := by
      rw [Bool.eq_false_iff]
      intro hs
      exact hmem ((find_phone_isSome_iff r old_phone).mp hs)
    unfold change_contact_wrapped change_contact
    simp [h, hf, input_error]
  · intro r h hmem
    have hf : (Record.find_phone r old_phone).isSome = true :=
      (find_phone_isSome_iff r old_phone).mpr hmem
    constructor
    · unfold change_contact_wrapped change_contact
      simp [h, hf, input_error]
    · unfold Record.edit_phone
      exact editPhoneList_length r.phones old_phone new_phone

/-- Witness for C6 at a concrete book and phone pair. -/
theorem change_contact_updates_or_not_found_witness :
    (bookFind [("john", ⟨"john", ["1234567890"], none⟩)] "john" =
        some ⟨"john", ["1234567890"], none⟩ ∧
      "1234567890" ∈ (⟨"john", ["1234567890"], none⟩ : Record).phones) ∧
    change_contact_wrapped ["john", "1234567890", "0987654321"]
        [("john", ⟨"john", ["1234567890"], none⟩)] =
      ("Contact updated.", [("john", ⟨"john", ["0987654321"], none⟩)]) :=
  ⟨⟨by decide, by decide⟩,
    (((change_contact_updates_or_not_found [("john", ⟨"john", ["1234567890"], none⟩)]
        "john" "1234567890" "0987654321").2.2 ⟨"john", ["1234567890"], none⟩
        (by decide) (by decide)).1).trans (by decide)⟩

theorem splitWsAux_all_ws (l : List Char) (h : l.all Char.isWhitespace = true) :
    splitWsAux l [] = [] := by
  induction l with
  | nil => rfl
  | cons c rest ih =>
    rw [List.all_cons, Bool.and_eq_true] at h
    unfold splitWsAux
    simp [h.1, ih h.2]

/-- C9: on an input line consisting only of whitespace, `split()` yields
no tokens, the starred unpack in `parse_input` raises an uncaught
`ValueError`, and the iteration of the dispatch loop ends in a crash
rather than the "Invalid command." branch. -/
theorem blank_input_crashes (line : String) (book : Book) (today : PyDate)
    (h : line.data.all Char.isWhitespace = true) :
    dispatch_step line book today = StepResult.crash PyErr.valueError := by
  unfold dispatch_step parse_input pySplitWs
  rw [splitWsAux_all_ws _ h]

/-- Witness for C9 at a concrete whitespace-only line. -/
theorem blank_input_crashes_witness :
    (" \t ".data.all Char.isWhitespace = true) ∧
    dispatch_step " \t " [] ⟨2024, 1, 1⟩ = StepResult.crash PyErr.valueError :=
  ⟨by decide, blank_input_crashes " \t " [] ⟨2024, 1, 1⟩ (by decide)⟩

theorem daysInMonth_pos (y m : Nat) : 1 ≤ daysInMonth y m := by
  unfold daysInMonth daysInMonthOf
  split_ifs <;> omega

theorem daysInMonth_le (y m : Nat) : daysInMonth y m ≤ 31 := by
  unfold daysInMonth daysInMonthOf
  split_ifs <;> omega

theorem daysBeforeMonth_succ (y m : Nat) (h : 1 ≤ m) :
    daysBeforeMonth y (m + 1) = daysBeforeMonth y m + daysInMonth y m := by
  unfold daysBeforeMonth daysInMonth
  cases m with
  | zero => omega
  | succ k => simp [daysBeforeMonthOf]

theorem daysBeforeMonth_twelve (y : Nat) :
    daysBeforeMonth y 12 + daysInMonth y 12 = if isLeap y then 366 else 365 := by
  unfold daysBeforeMonth daysInMonth
  cases hl : isLeap y <;> decide

set_option maxHeartbeats 1600000 in
theorem daysBeforeYear_succ (y : Nat) (hy : 1 ≤ y) :
    daysBeforeYear (y + 1) = daysBeforeYear y + (if isLeap y then 366 else 365) := by
  by_cases hl : isLeap y = true
  · rw [if_pos hl]
    rw [isLeap, Bool.and_eq_true, beq_iff_eq, Bool.or_eq_true, bne_iff_ne, beq_iff_eq] at hl
    unfold daysBeforeYear
    omega
  · rw [if_neg hl]
    rw [isLeap, Bool.and_eq_true, beq_iff_eq, Bool.or_eq_true, bne_iff_ne, beq_iff_eq] at hl
    push_neg at hl
    unfold daysBeforeYear
    omega

theorem rataDie_pos (d : PyDate) (h : isProperDate d = true) : 1 ≤ rataDie d := by
  simp only [isProperDate, decide_eq_true_eq] at h
  unfold rataDie
  omega

theorem isProperDate_nextDay (d : PyDate) (h : isProperDate d = true) :
    isProperDate (nextDay d) = true := by
  obtain ⟨y, m, dd⟩ := d
  simp only [isProperDate, decide_eq_true_eq] at h
  unfold nextDay
  dsimp only at h ⊢
  split_ifs with h1 h2 <;> simp only [isProperDate, decide_eq_true_eq]
  · exact ⟨h.1, h.2.1, h.2.2.1, by omega, by omega⟩
  · exact ⟨h.1, by omega, by omega, by omega, daysInMonth_pos y (m + 1)⟩
  · exact ⟨by omega, by omega, by omega, by omega, daysInMonth_pos (y + 1) 1⟩

theorem rataDie_nextDay (d : PyDate) (h : isProperDate d = true) :
    rataDie (nextDay d) = rataDie d + 1 := by
  obtain ⟨y, m, dd⟩ := d
  simp only [isProperDate, decide_eq_true_eq] at h
  obtain ⟨hy, hm1, hm2, hd1, hd2⟩ := h
  unfold nextDay
  dsimp only
  split_ifs with h1 h2
  · unfold rataDie
    dsimp only
    omega
  · unfold rataDie
    dsimp only
    rw [daysBeforeMonth_succ y m hm1]
    omega
  · have hm12 : m = 12 := by omega
    subst hm12
    have hd : dd = daysInMonth y 12 := by omega
    unfold rataDie
    dsimp only
    have hb1 : daysBeforeMonth (y + 1) 1 = 0 := rfl
    rw [daysBeforeYear_succ y hy, hb1]
    have h12 := daysBeforeMonth_twelve y
    by_cases hL : isLeap y = true
    · rw [if_pos hL] at h12 ⊢
      omega
    · rw [if_neg hL] at h12 ⊢
      omega

theorem addDays_spec (d : PyDate) (h : isProperDate d = true) (n : Nat) :
    isProperDate (addDays d n) = true ∧ rataDie (addDays d n) = rataDie d + n := by
  induction n with
  | zero => exact ⟨h, rfl⟩
  | succ k ih =>
    refine ⟨isProperDate_nextDay _ ih.1, ?_⟩
    show rataDie (nextDay (addDays d k)) = _
    rw [rataDie_nextDay _ ih.1, ih.2]
    omega

theorem pyWeekday_addDays (d : PyDate) (h : isProperDate d = true) (n : Nat) :
    pyWeekday (addDays d n) = (pyWeekday d + n) % 7 := by
  have hr := (addDays_spec d h n).2
  have hpos := rataDie_pos d h
  unfold pyWeekday
  rw [hr]
  omega

/-- C4: on a valid selected date, `adjust_for_weekend` maps a Saturday or
Sunday (weekday index ≥ 5, Monday = 0) to the next Monday after it — a
strictly later date, at most 7 days ahead, with weekday 0 — and leaves
Monday-through-Friday dates unshifted; the entry that
`get_upcoming_birthdays` returns for a selected record carries exactly
the weekend-adjusted date rendered as `YYYY.MM.DD` text. -/
theorem adjust_for_weekend_next_monday (c : PyDate) (h : isProperDate c = true) :
    (5 ≤ pyWeekday c →
      pyWeekday (adjust_for_weekend c) = 0 ∧
      rataDie c < rataDie (adjust_for_weekend c) ∧
      rataDie (adjust_for_weekend c) ≤ rataDie c + 7) ∧
    (pyWeekday c < 5 → adjust_for_weekend c = c) ∧
    (∀ (today : PyDate) (days : Int) (r : Record) (b : PyDate),
      r.birthday = some b → candidateDate b today = some c →
      0 ≤ dateDiff c today → dateDiff c today ≤ days →
      entryFn today days r = some (r.name, formatYMD (adjust_for_weekend c))) := by
  refine ⟨?_, ?_, ?_⟩
  · intro h5
    have hwd : pyWeekday c < 7 := Nat.mod_lt _ (by norm_num)
    unfold adjust_for_weekend
    rw [if_pos h5]
    unfold find_next_weekday
    rw [if_pos (by omega : (0 : Int) - (pyWeekday c : Nat) ≤ 0)]
    refine ⟨?_, ?_, ?_⟩
    · rw [pyWeekday_addDays c h]
      omega
    · rw [(addDays_spec c h _).2]
      omega
    · rw [(addDays_spec c h _).2]
      omega
  · intro h5
    unfold adjust_for_weekend
    rw [if_neg (by omega)]
  · intro today days r b hb hc h0 hdays
    simp only [entryFn, hb, hc]
    rw [if_pos ⟨h0, hdays⟩]

/-- Witness for C4 at 2024-01-06, a Saturday. -/
theorem adjust_for_weekend_next_monday_witness :
    isProperDate ⟨2024, 1, 6⟩ = true ∧
    ((5 ≤ pyWeekday ⟨2024, 1, 6⟩ →
      pyWeekday (adjust_for_weekend ⟨2024, 1, 6⟩) = 0 ∧
      rataDie ⟨2024, 1, 6⟩ < rataDie (adjust_for_weekend ⟨2024, 1, 6⟩) ∧
      rataDie (adjust_for_weekend ⟨2024, 1, 6⟩) ≤ rataDie ⟨2024, 1, 6⟩ + 7) ∧
    (pyWeekday ⟨2024, 1, 6⟩ < 5 → adjust_for_weekend ⟨2024, 1, 6⟩ = ⟨2024, 1, 6⟩) ∧
    (∀ (today : PyDate) (days : Int) (r : Record) (b : PyDate),
      r.birthday = some b → candidateDate b today = some ⟨2024, 1, 6⟩ →
      0 ≤ dateDiff ⟨2024, 1, 6⟩ today → dateDiff ⟨2024, 1, 6⟩ today ≤ days →
      entryFn today days r =
        some (r.name, formatYMD (adjust_for_weekend ⟨2024, 1, 6⟩)))) :=
  ⟨by decide, adjust_for_weekend_next_monday ⟨2024, 1, 6⟩ (by decide)⟩

theorem candidateDate_eq_claim (b today c : PyDate)
    (h : candidateDate b today = some c) : c = claimAdjustedBirthday b today := by
  unfold candidateDate at h
  unfold claimAdjustedBirthday
  cases hrep : replaceYear b today.year with
  | none => simp [hrep] at h
  | some b1 =>
    simp only [hrep] at h
    have hb1 : b1 = ⟨today.year, b.month, b.day⟩ := by
      unfold replaceYear at hrep
      split_ifs at hrep with hp
      exact (Option.some.inj hrep).symm
    subst hb1
    by_cases hlt : dateLt ⟨today.year, b.month, b.day⟩ today = true
    · rw [if_pos hlt] at h ⊢
      unfold replaceYear at h
      dsimp only at h
      split_ifs at h with hp
      exact (Option.some.inj h).symm
    · rw [if_neg hlt] at h ⊢
      exact (Option.some.inj h).symm

theorem upcomingAux_ok (rs : List Record) (today : PyDate) (days : Int)
    (hAll : ∀ r ∈ rs,
      Option.all (fun b => (candidateDate b today).isSome) r.birthday = true) :
    upcomingAux rs today days = Except.ok (rs.filterMap (entryFn today days)) := by
  induction rs with
  | nil => rfl
  | cons r rest ih =>
    have hrest : ∀ x ∈ rest,
        Option.all (fun b => (candidateDate b today).isSome) x.birthday = true :=
      fun x hx => hAll x (List.mem_cons_of_mem _ hx)
    have hr := hAll r (List.mem_cons_self r rest)
    cases hb : r.birthday with
    | none =>
      simp only [upcomingAux, hb, List.filterMap_cons, entryFn]
      exact ih hrest
    | some b =>
      rw [hb] at hr
      have hr' : (candidateDate b today).isSome = true := by
        simpa [Option.all] using hr
      obtain ⟨c, hc⟩ := Option.isSome_iff_exists.mp hr'
      by_cases hsel : 0 ≤ dateDiff c today ∧ dateDiff c today ≤ days
      · simp [upcomingAux, hb, hc, entryFn, ih hrest, hsel, List.filterMap_cons]
      · simp [upcomingAux, hb, hc, entryFn, ih hrest, hsel, List.filterMap_cons]

/-- C3: for every record with a birthday — under the assumption that the
`replace` calls do not raise, i.e. the birthday's month/day exists in the
relevant years — `get_upcoming_birthdays` returns exactly one entry per
record whose candidate date (the birthday with the year replaced by the
current year, replaced by the next year if that current-year date is
strictly before today) lies between 0 and `days` days from today,
inclusive at both ends. -/
theorem get_upcoming_birthdays_selects (book : Book) (today : PyDate) (days : Int)
    (hAll : ∀ r ∈ bookRecords book,
      Option.all (fun b => (candidateDate b today).isSome) r.birthday = true) :
    get_upcoming_birthdays book today days =
      Except.ok ((bookRecords book).filterMap (entryFn today days)) ∧
    ∀ r ∈ bookRecords book, ∀ b, r.birthday = some b →
      ((entryFn today days r).isSome = true ↔ claimSelected b today days) := by
  constructor
  · exact upcomingAux_ok (bookRecords book) today days hAll
  · intro r hr b hb
    have h1 := hAll r hr
    rw [hb] at h1
    have h2 : (candidateDate b today).isSome = true := by
      simpa [Option.all] using h1
    obtain ⟨c, hc⟩ := Option.isSome_iff_exists.mp h2
    have hcc := candidateDate_eq_claim b today c hc
    unfold claimSelected
    rw [← hcc]
    simp only [entryFn, hb, hc]
    by_cases hsel : 0 ≤ dateDiff c today ∧ dateDiff c today ≤ days
    · rw [if_pos hsel]
      simpa using hsel
    · rw [if_neg hsel]
      simpa using hsel

/-- Witness for C3 at a concrete one-record book. -/
theorem get_upcoming_birthdays_selects_witness :
    (∀ r ∈ bookRecords [("john", (⟨"john", [], some ⟨1990, 1, 3⟩⟩ : Record))],
      Option.all (fun b => (candidateDate b ⟨2024, 1, 1⟩).isSome) r.birthday = true) ∧
    (get_upcoming_birthdays [("john", ⟨"john", [], some ⟨1990, 1, 3⟩⟩)] ⟨2024, 1, 1⟩ 7 =
      Except.ok ((bookRecords [("john", ⟨"john", [], some ⟨1990, 1, 3⟩⟩)]).filterMap
        (entryFn ⟨2024, 1, 1⟩ 7)) ∧
    ∀ r ∈ bookRecords [("john", (⟨"john", [], some ⟨1990, 1, 3⟩⟩ : Record))],
      ∀ b, r.birthday = some b →
      ((entryFn ⟨2024, 1, 1⟩ 7 r).isSome = true ↔ claimSelected b ⟨2024, 1, 1⟩ 7)) :=
  ⟨by decide, get_upcoming_birthdays_selects [("john", ⟨"john", [], some ⟨1990, 1, 3⟩⟩)]
    ⟨2024, 1, 1⟩ 7 (by decide)⟩

theorem dchar_isDigit (k : Nat) : (dchar k).isDigit = true := by
  unfold dchar
  generalize hj : k % 10 = j
  have h : j < 10 := hj ▸ Nat.mod_lt _ (by norm_num)
  interval_cases j <;> decide

theorem dchar_toNat (k : Nat) : (dchar k).toNat = 48 + k % 10 := by
  unfold dchar
  generalize hj : k % 10 = j
  have h : j < 10 := hj ▸ Nat.mod_lt _ (by norm_num)
  interval_cases j <;> decide

theorem dchar_ne_dash (k : Nat) : dchar k ≠ '-' := by
  unfold dchar
  generalize hj : k % 10 = j
  have h : j < 10 := hj ▸ Nat.mod_lt _ (by norm_num)
  interval_cases j <;> decide

theorem pad2_digits (n : Nat) : (pad2 n).all Char.isDigit = true := by
  simp [pad2, dchar_isDigit]

theorem pad4_digits (n : Nat) : (pad4 n).all Char.isDigit = true := by
  simp [pad4, dchar_isDigit]

theorem digitsToNat_pad2 (n : Nat) (h : n < 100) : digitsToNat (pad2 n) = n := by
  unfold pad2 digitsToNat
  simp only [List.foldl_cons, List.foldl_nil, dchar_toNat]
  omega

theorem digitsToNat_pad4 (n : Nat) (h : n < 10000) : digitsToNat (pad4 n) = n := by
  unfold pad4 digitsToNat
  simp only [List.foldl_cons, List.foldl_nil, dchar_toNat]
  omega

theorem okDay_pad2 (n : Nat) (h1 : 1 ≤ n) (h2 : n ≤ 31) : okDay (pad2 n) = true := by
  unfold okDay
  rw [pad2_digits, Bool.true_and]
  simp only [digitsToNat_pad2 n (by omega), decide_eq_true_eq]
  exact ⟨by simp [pad2], by simp [pad2], h1, h2⟩

theorem okMonth_pad2 (n : Nat) (h1 : 1 ≤ n) (h2 : n ≤ 12) : okMonth (pad2 n) = true := by
  unfold okMonth
  rw [pad2_digits, Bool.true_and]
  simp only [digitsToNat_pad2 n (by omega), decide_eq_true_eq]
  exact ⟨by simp [pad2], by simp [pad2], h1, h2⟩

theorem okYear_pad4 (n : Nat) : okYear (pad4 n) = true := by
  unfold okYear
  rw [pad4_digits, Bool.true_and]
  simp [pad4]

theorem splitOnDash_format (d : PyDate) :
    splitOnDash (formatDMYList d) = [pad2 d.day, pad2 d.month, pad4 d.year] := by
  unfold formatDMYList pad2 pad4
  simp only [List.cons_append, List.nil_append]
  simp [splitOnDash, dchar_ne_dash]

theorem parse_format_roundtrip (y m d : Nat) (h : isProperDate ⟨y, m, d⟩ = true)
    (hy : y ≤ 9999) : parseDMYList (formatDMYList ⟨y, m, d⟩) = some ⟨y, m, d⟩ := by
  simp only [isProperDate, decide_eq_true_eq] at h
  obtain ⟨h1, h2, h3, h4, h5⟩ := h
  have hd31 : d ≤ 31 := le_trans h5 (daysInMonth_le y m)
  unfold parseDMYList
  rw [splitOnDash_format]
  dsimp only
  rw [okDay_pad2 d h4 hd31, okMonth_pad2 m h2 h3, okYear_pad4 y]
  simp only [Bool.and_self, if_true]
  rw [digitsToNat_pad2 d (by omega), digitsToNat_pad2 m (by omega),
    digitsToNat_pad4 y (by omega)]
  rw [if_pos ⟨h1, h5⟩]

/-- C7: for every valid calendar date, the zero-padded `DD-MM-YYYY`
rendering — the exact shape of every zero-padded `DD-MM-YYYY` text —
is accepted by the `Birthday` constructor, and the constructed value
renders back to the identical string. -/
theorem birthday_roundtrip (y m d : Nat) (h : isProperDate ⟨y, m, d⟩ = true)
    (hy : y ≤ 9999) :
    Birthday_init (formatDMY ⟨y, m, d⟩) = Except.ok ⟨y, m, d⟩ ∧
    Birthday_str ⟨y, m, d⟩ = formatDMY ⟨y, m, d⟩ := by
  refine ⟨?_, rfl⟩
  unfold Birthday_init formatDMY
  rw [show (⟨formatDMYList ⟨y, m, d⟩⟩ : String).data = formatDMYList ⟨y, m, d⟩ from rfl]
  rw [parse_format_roundtrip y m d h hy]

/-- Witness for C7 at the date 05-06-2030. -/
theorem birthday_roundtrip_witness :
    (isProperDate ⟨2030, 6, 5⟩ = true ∧ 2030 ≤ 9999) ∧
    Birthday_init (formatDMY ⟨2030, 6, 5⟩) = Except.ok ⟨2030, 6, 5⟩ ∧
    Birthday_str ⟨2030, 6, 5⟩ = formatDMY ⟨2030, 6, 5⟩ :=
  ⟨⟨by decide, by decide⟩, birthday_roundtrip 2030 6 5 (by decide) (by decide)⟩
